import Mathlib

/-!
Shallow embedding of `src/scripts/sound_source_localization.py`
(class `SoundSourceLocation`) and proofs about it.

External collaborators (the `pyroomacoustics` DOA/STFT library and the
`scipy.io.loadmat` signal store) are abstracted as function parameters,
as the specification scopes them out.  Two helpers imported from
`scripts/utils.py` (`convert_to_one_list`,
`check_list_of_lists_are_same_length`) are not part of the sources and
are modelled from the spec; they are marked as such below.
-/

set_option maxHeartbeats 1000000
set_option maxRecDepth 8000

namespace SSLoc

/-- Python runtime values that can appear in the signal matrix and in the
microphone-location arguments: `None`, strings, ints, floats and (nested)
lists. -/
inductive PyVal : Type where
  | vNone : PyVal
  | vStr : String → PyVal
  | vInt : ℤ → PyVal
  | vFloat : ℝ → PyVal
  | vList : List PyVal → PyVal
deriving Inhabited

/-- Python exceptions raised by the embedded functions. -/
inductive PyErr : Type where
  | valueError : String → PyErr
  | typeError : String → PyErr
  | nameError : String → PyErr
  | zeroDivisionError : PyErr
  | indexError : PyErr

/-- Python `v is None` as a boolean (decidable even though `PyVal` carries reals). -/
def PyVal.isNoneB : PyVal → Bool
  | .vNone => true
  | _ => false

/-- Python `isinstance(v, float)` as a boolean. -/
def PyVal.isFloatB : PyVal → Bool
  | .vFloat _ => true
  | _ => false

/-- Whether `v` is a numeric Python value (an int or a float).  This is the
reading of "numeric" used by the specification; the source instead tests
`isinstance(v, float)` (`PyVal.isFloatB`). -/
def PyVal.isNumericB : PyVal → Bool
  | .vFloat _ => true
  | .vInt _ => true
  | _ => false

/-- Whether `v` is a non-list (leaf) value. -/
def PyVal.isLeafB : PyVal → Bool
  | .vList _ => false
  | _ => true

/-- Whether `v` is a list whose elements are all floats. -/
def PyVal.isFloatListB : PyVal → Bool
  | .vList l => l.all PyVal.isFloatB
  | _ => false

mutual
/-- Modelled from the spec: `convert_to_one_list` is imported from
`scripts/utils.py`, which is not among the sources; per spec §4.1/§4.2 it
flattens an arbitrarily nested argument tuple into one flat list of leaf
values. -/
def convert_to_one_list : List PyVal → List PyVal
  | [] => []
  | v :: vs => flatten_val v ++ convert_to_one_list vs

/-- Flattening of a single value: lists are flattened recursively, any
other value is a leaf. -/
def flatten_val : PyVal → List PyVal
  | .vList l => convert_to_one_list l
  | .vNone => [.vNone]
  | .vStr s => [.vStr s]
  | .vInt n => [.vInt n]
  | .vFloat x => [.vFloat x]
end

mutual
/-- Test `None in data` on a numpy array: elementwise comparison with `None`
over all entries of the (possibly nested) array. -/
def deep_contains_none_list : List PyVal → Bool
  | [] => false
  | v :: vs => deep_contains_none v || deep_contains_none_list vs

/-- Whether a single (possibly nested) value contains `None`. -/
def deep_contains_none : PyVal → Bool
  | .vNone => true
  | .vList l => deep_contains_none_list l
  | _ => false
end

/-- The location sub-lists appearing directly inside the lists of the
argument tuple `args`. -/
def inner_lists (args : List PyVal) : List (List PyVal) :=
  args.flatMap (fun a =>
    match a with
    | .vList l => l.filterMap (fun x =>
        match x with
        | .vList r => some r
        | _ => none)
    | _ => [])

/-- Modelled from the spec: `check_list_of_lists_are_same_length` is
imported from `scripts/utils.py`, which is not among the sources; per
spec §4.1 it checks that all location sub-lists in the argument tuple
have the same length. -/
def check_list_of_lists_are_same_length (args : List PyVal) : Bool :=
  match inner_lists args with
  | [] => true
  | r :: rs => rs.all (fun s => s.length == r.length)

/-- Source `create_microphone_locations_list`: the fixed list of 12 microphone
locations, a Cartesian product of 3 x-values, 1 y-value and 4 z-values
(in that nesting order). -/
noncomputable def create_microphone_locations_list : List (List ℝ) :=
  [-0.102235, -0.052197, -0.027304].flatMap (fun x =>
    [-0.109982].flatMap (fun y =>
      [0.056388, 0.001524, -0.053340, -0.108204].map (fun z => [x, y, z])))

/-- The known microphone identifiers `mic1` .. `mic12`, in dictionary
insertion order. -/
def mic_names : List String := (List.range 12).map (fun j => "mic" ++ toString (j + 1))

/-- Result of `get_mic_match_with_sound_data` when no exception is raised:
either the matched signal rows and locations, or the error string the
source returns (rather than raises) on a row-count mismatch. -/
inductive MicMatchResult : Type where
  | found : List PyVal → List (List ℝ) → MicMatchResult
  | mismatch : String → MicMatchResult

/-- First guard of `get_mic_match_with_sound_data`:
`not data.tolist() or (data.size == 1 and None in data.tolist())`, i.e.
the matrix has no rows, or is the single scalar `None`. -/
def signal_empty_guard (data : List PyVal) : Bool :=
  match data with
  | [] => true
  | [.vNone] => true
  | _ => false

/-- Third guard of `get_mic_match_with_sound_data`: `"" in data.tolist()`,
a top-level membership test of the empty string among the rows. -/
def has_empty_string_row (data : List PyVal) : Bool :=
  data.any (fun r =>
    match r with
    | .vStr "" => true
    | _ => false)

/-- Source `get_mic_match_with_sound_data(data, *args)`: validates the signal
matrix, then matches each requested microphone name against the
name → (location, signal row) dictionary, in request order, silently
skipping unknown names.  On a row-count mismatch it RETURNS the
descriptive error string (the source has `return f"Error. Mismatch..."`,
not a `raise`). -/
noncomputable def get_mic_match_with_sound_data (data : List PyVal) (args : List String) :
    Except PyErr MicMatchResult :=
  if signal_empty_guard data then .error (.valueError "Error. The signal is empty.")
  else if deep_contains_none_list data then .error (.valueError "Error. The signal contains None.")
  else if has_empty_string_row data then
    .error (.valueError "Error. The signal contains an empty string.")
  else if (convert_to_one_list (args.map PyVal.vStr)).isEmpty then
    .error (.valueError "Error. Microphone list is empty.")
  else if create_microphone_locations_list.length = data.length then
    let dict := mic_names.zip (create_microphone_locations_list.zip data)
    let hits := args.filterMap (fun a => dict.lookup a)
    .ok (.found (hits.map Prod.snd) (hits.map Prod.fst))
  else
    .ok (.mismatch
      "Error. Mismatch in length of microphone location list and length of signal list.")

/-- A microphone location encoded as the Python value the source passes
around: a list of floats. -/
def loc_to_py (l : List ℝ) : PyVal := .vList (l.map PyVal.vFloat)

/-- Extract the float entries of a row value.  At every reachable call
site the row is a list of floats, so the default `0` for non-float
entries is never used. -/
noncomputable def py_row (v : PyVal) : List ℝ :=
  match v with
  | .vList l => l.map (fun x =>
      match x with
      | .vFloat t => t
      | _ => 0)
  | _ => []

/-- Extract a float value (default `0`, unreachable at call sites). -/
noncomputable def py_float (v : PyVal) : ℝ :=
  match v with
  | .vFloat t => t
  | _ => 0

/-- Numpy `np.sum(a, axis=0)` for a list of equal-length rows: the vector sum. -/
noncomputable def np_sum_axis0 : List (List ℝ) → List ℝ
  | [] => []
  | [r] => r
  | r :: rs => List.zipWith (· + ·) r (np_sum_axis0 rs)

/-- Numpy `np.sum(microphone_array, axis=0) / len(*args)`: the coordinate-wise
mean the source computes. -/
noncomputable def get_centroid_mean (rows : List (List ℝ)) : List ℝ :=
  (np_sum_axis0 rows).map (fun s => s / (rows.length : ℝ))

/-- Source `get_centroid(*args)` at its single-argument calling convention
(`self.get_centroid(mic_locations)`): validates via the two utils
helpers and the float-type check, then returns
`np.sum(np.array(arg), axis=0) / len(arg)`.  The final branch flags the
nested-ndarray corner this embedding does not model (no claim reaches
it). -/
noncomputable def get_centroid (arg : List PyVal) : Except PyErr PyVal :=
  let args : List PyVal := [.vList arg]
  let flat := convert_to_one_list args
  if flat.isEmpty then .error (.valueError "Error. Microphone location list is empty.")
  else if flat.any PyVal.isNoneB then
    .error (.valueError "Error. Microphone location list contains None.")
  else if !(check_list_of_lists_are_same_length args) then
    .error (.valueError "Error. Not all microphone locations have same length!")
  else if !(flat.all PyVal.isFloatB) then
    .error (.typeError "Error. Microphone location list does not contain a float type.")
  else if arg.all PyVal.isFloatListB then
    .ok (.vList ((get_centroid_mean (arg.map py_row)).map PyVal.vFloat))
  else if arg.all PyVal.isFloatB then
    .ok (.vFloat ((arg.map py_float).sum / (arg.length : ℝ)))
  else .error (.valueError "unmodelled inhomogeneous ndarray")

/-- A 3-D point (a numpy row of length 3). -/
abbrev Vec3 := List ℝ

/-- Elementwise vector addition (numpy `+` on equal-length rows). -/
noncomputable def vadd (a b : Vec3) : Vec3 := List.zipWith (· + ·) a b

/-- Scalar multiplication of a row. -/
noncomputable def vsmul (r : ℝ) (u : Vec3) : Vec3 := u.map (fun t => r * t)

/-- One column of the `cartesian_coordinates` array:
`[cos(az)*sin(colat), sin(az)*sin(colat), cos(colat)]`. -/
noncomputable def unit_direction (az colat : ℝ) : Vec3 :=
  [Real.cos az * Real.sin colat, Real.sin az * Real.sin colat, Real.cos colat]

/-- Source `self.radius = np.arange(0, 0.5, self.tol)` with `tol = 1e-3`:
the 500 radii `i / 1000` for `i = 0 .. 499`. -/
noncomputable def radius : List ℝ := (List.range 500).map (fun i => (i : ℝ) / 1000)

/-- Output contract of the external DOA solver (spec §4.3): two arrays of
length `numSources` - azimuth and co-latitude in radians.  Modelled from
the spec: the solver itself (`pyroomacoustics`) is an external
collaborator. -/
structure DoaResult (n : ℕ) : Type where
  azimuth : List ℝ
  colatitude : List ℝ
  azimuth_length : azimuth.length = n
  colatitude_length : colatitude.length = n

/-- Test `None in signal` for one row of the signal list. -/
def row_contains_none (v : PyVal) : Bool :=
  match v with
  | .vList l => l.any PyVal.isNoneB
  | _ => false

/-- Source `difference_of_arrivals(signal_list, *mic_location)`: the input guards
of the source; the STFT transform and DOA solver call are the external
`locate` collaborator. -/
def difference_of_arrivals (n : ℕ)
    (locate : List PyVal → List (List ℝ) → DoaResult n)
    (signal_list : List PyVal) (mic_location : List (List ℝ)) :
    Except PyErr (DoaResult n) :=
  if signal_list.isEmpty then .error (.valueError "Error. Signal list is empty.")
  else if signal_list.length = 1 && (signal_list.headD .vNone).isNoneB then
    .error (.valueError "Error. None in signal list.")
  else if signal_list.any row_contains_none then
    .error (.valueError "Error. None in signal list.")
  else if mic_location.isEmpty then
    .error (.valueError "Error. Microphone location list is empty.")
  else .ok (locate signal_list mic_location)

/-- numpy broadcasting of `rad[:, np.newaxis] * g` for a `(len rad, 1)`
column against a `(len g, 3)` array of rows: sizes must match or one of
them must be 1, otherwise numpy raises. -/
noncomputable def broadcast_radius_mul (rad : List ℝ) (g : List Vec3) : Except PyErr (List Vec3) :=
  match g with
  | [u] => .ok (rad.map (fun r => vsmul r u))
  | _ =>
    match rad with
    | [r] => .ok (g.map (fun u => vsmul r u))
    | _ =>
      if rad.length = g.length then .ok (List.zipWith vsmul rad g)
      else .error (.valueError "operands could not be broadcast together")

/-- Source `split_and_conquer(the_centroid, cartesian_arr)`: `np.vsplit` the
transposed cartesian array into `num_sources` equal groups, multiply each
group by the radius column and recenter with the (shared) centroid, then
`np.vstack` the groups.  The `isinstance(cartesian_arr, np.ndarray)`
check holds by type in this embedding. -/
noncomputable def split_and_conquer (num_sources : ℕ) (the_centroid : Vec3)
    (cartesian_arr : List Vec3) : Except PyErr (List Vec3) :=
  if cartesian_arr.length % num_sources ≠ 0 then
    .error (.valueError "array split does not result in an equal division")
  else
    let g := cartesian_arr.length / num_sources
    let groups := (List.range num_sources).map
      (fun i => (cartesian_arr.drop (i * g)).take g)
    match groups.mapM (fun grp =>
        (broadcast_radius_mul radius grp).map
          (fun pts => pts.map (fun p => vadd p the_centroid))) with
    | .error e => .error e
    | .ok parts => .ok parts.flatten

/-- Source `get_estimates(sound_data, *mic_split)`: match microphones to signals,
compute the centroid, get (azimuth, co-latitude) from the DOA adapter,
build the cartesian unit directions, then radius-scale and recenter
(single source) or `split_and_conquer` (multiple sources).  Unpacking the
mismatch STRING returned by `get_mic_match_with_sound_data` raises a
`ValueError` in Python (`too many values to unpack`).  A tuple of name
strings never contains `None`, so the source's `None in mic_split` guard
cannot fire in this embedding. -/
noncomputable def get_estimates (num_sources : ℕ)
    (locate : List PyVal → List (List ℝ) → DoaResult num_sources)
    (sound_data : List PyVal) (mic_split : List String) : Except PyErr (List Vec3) :=
  if mic_split.isEmpty then .error (.valueError "Error. Mic split list is empty.")
  else
    match get_mic_match_with_sound_data sound_data mic_split with
    | .error e => .error e
    | .ok (.mismatch _) => .error (.valueError "too many values to unpack (expected 2)")
    | .ok (.found signal mic_locations) =>
      match get_centroid (mic_locations.map loc_to_py) with
      | .error e => .error e
      | .ok centroid =>
        match difference_of_arrivals num_sources locate signal mic_locations with
        | .error e => .error e
        | .ok doa =>
          let cart := List.zipWith unit_direction doa.azimuth doa.colatitude
          if 1 < num_sources then
            split_and_conquer num_sources (py_row centroid) cart
          else
            match broadcast_radius_mul radius cart with
            | .error e => .error e
            | .ok pts => .ok (pts.map (fun p => vadd p (py_row centroid)))

/-- Source `self.combinations_number = 3`. -/
def combinations_number : ℕ := 3

/-- Python `itertools.combinations(l, k)`: all size-`k` combinations in
lexicographic order of positions. -/
def combinations {α : Type} : ℕ → List α → List (List α)
  | 0, _ => [[]]
  | _ + 1, [] => []
  | k + 1, x :: xs => ((combinations k xs).map (fun c => x :: c)) ++ combinations (k + 1) xs

/-- The microphone pool selected by the `s1_bool` flag (source lines
372-380): `{2,3,6,7,10,11}` for S1, `{1,2,5,6,9,10}` for S2. -/
def mics_for (s1_bool : Bool) : List String :=
  if s1_bool then [2, 3, 6, 7, 10, 11].map (fun i => "mic" ++ toString i)
  else [1, 2, 5, 6, 9, 10].map (fun i => "mic" ++ toString i)

/-- Python list indexing: raises `IndexError` when out of range. -/
def pyGet {α : Type} (l : List α) (i : ℕ) : Except PyErr α :=
  if h : i < l.length then .ok (l.get ⟨i, h⟩) else .error .indexError

/-- The subset schedule of `process_potential_estimates` (source lines
382-426): `splits = len(mic_list) // 5`; the list is cut into chunks of
size `splits`; in round `j` (for `j < splits`) the five threads take
element `j` of chunks `0..4`; results are collected round-major then
thread-major.  Python raises `ZeroDivisionError` when `splits` is 0, and
`IndexError` on an out-of-range chunk access; subsets in no chunk among
`0..4`, or at positions `≥ splits` of a chunk, are silently never
dispatched. -/
def scheduled_subsets {α : Type} (mic_list : List α) : Except PyErr (List α) :=
  let splits := mic_list.length / 5
  if splits = 0 then .error .zeroDivisionError
  else
    let chunkCount := (mic_list.length + splits - 1) / splits
    let chunks := (List.range chunkCount).map
      (fun i => (mic_list.drop (i * splits)).take splits)
    match (List.range splits).mapM (fun j =>
        (List.range 5).mapM (fun k =>
          match pyGet chunks k with
          | .error e => (.error e : Except PyErr α)
          | .ok c => pyGet c j)) with
    | .error e => .error e
    | .ok rounds => .ok rounds.flatten

/-- Source `room_dim = np.array([0.34925, 0.219964, 0.2413])`. -/
noncomputable def room_dim : Vec3 := [0.34925, 0.219964, 0.2413]

/-- Source `center_of_room = room_dim / 2`. -/
noncomputable def center_of_room : Vec3 := room_dim.map (fun t => t / 2)

/-- Source `process_potential_estimates(all_sound_data)` with the pool parameter
made explicit: enumerate all 3-element combinations of the selected pool,
dispatch them on the 5-thread schedule, flatten the per-subset estimate
arrays (the `np.array` + `reshape(_, 3)` of the source) and re-center by
`center_of_room`.  The thread helper `ThreadWithReturnValue` lives in
`scripts/utils.py`, which is not among the sources; modelled from the
spec (§5, §7): workers are joined in order each round and a failing
subset fails cycle processing, so the dispatch is embedded as in-order
sequencing that propagates the first error. -/
noncomputable def process_potential_estimates (num_sources : ℕ)
    (locate : List PyVal → List (List ℝ) → DoaResult num_sources)
    (all_sound_data : List PyVal) (s1_bool : Bool) : Except PyErr (List Vec3) :=
  let mic_list := combinations combinations_number (mics_for s1_bool)
  match scheduled_subsets mic_list with
  | .error e => .error e
  | .ok sched =>
    match sched.mapM (fun split => get_estimates num_sources locate all_sound_data split) with
    | .error e => .error e
    | .ok outputs =>
      let potential_sources := outputs.flatten
      .ok (potential_sources.map (fun p => vadd center_of_room p))

/-- The source/cycle dictionary of `get_sound_data`: key `S{x}_Cycle{y}`
maps to the relative data path and the mat-file variable name, for
`x ∈ {1,2}` and `y ∈ 0..23`. -/
def source_name_dict (recovered : Bool) : List (String × String × String) :=
  (List.range 2).flatMap (fun x =>
    (List.range 24).map (fun y =>
      ("S" ++ toString (x + 1) ++ "_Cycle" ++ toString y,
       (if recovered then
          "Recovered_S" ++ toString (x + 1) ++ "/S" ++ toString (x + 1) ++ "_Cycle" ++ toString y
        else
          "S" ++ toString (x + 1) ++ "/S" ++ toString (x + 1) ++ "_Cycle" ++ toString y),
       "S" ++ toString (x + 1))))

/-- The valid source/cycle names, i.e. the dictionary keys. -/
def source_name_keys (recovered : Bool) : List String :=
  (source_name_dict recovered).map Prod.fst

/-- Source `get_sound_data(name_of_source)`: raises `NameError` when the name is
not a dictionary key, otherwise loads the matrix for the built path from
the external store (`scipy.io.loadmat`, abstracted as `store path key`).
The `isinstance(self.recovered, bool)` check holds by type here. -/
def get_sound_data (store : String → String → List PyVal) (filepath : String)
    (recovered : Bool) (name_of_source : String) : Except PyErr (List PyVal) :=
  match (source_name_dict recovered).lookup name_of_source with
  | some pk => .ok (store (filepath ++ pk.1) pk.2)
  | none => .error (.nameError (name_of_source ++ " name not in cycle list"))

/-- Cycle names `Cycle0` .. `Cycle23`. -/
def cycles : List String := (List.range 24).map (fun i => "Cycle" ++ toString i)

/-- Source names `S1`, `S2`. -/
def sound_sources : List String := (List.range 2).map (fun i => "S" ++ toString (i + 1))

/-- The 48 source/cycle names iterated by `generate_potential_sources`,
S1 cycles first. -/
def sound_list : List String :=
  sound_sources.flatMap (fun s => cycles.map (fun c => s ++ "_" ++ c))

/-- The S2 cycle names that flip `self.s1_bool` to `False`. -/
def s2_cycle_names : List String :=
  (List.range 24).map (fun j => "S2_Cycle" ++ toString j)

/-- The loop body shared by the generator models: fold over the names,
updating the `s1_bool` flag BEFORE producing the value for the current
name (as the source does), and return the yielded pairs together with
the final flag (which persists on the object across calls). -/
def gen_aux {α : Type} (f : String → Bool → α) :
    List String → Bool → List (String × α) × Bool
  | [], b => ([], b)
  | nm :: rest, b =>
    let b' := if nm ∈ s2_cycle_names then false else b
    let tail := gen_aux f rest b'
    ((nm, f nm b') :: tail.1, tail.2)

/-- The `s1_bool` trace of one call of `generate_potential_sources`
starting from flag `b0`: which pool flag each yielded name is processed
with, and the final flag left on the object. -/
def generate_pool_flags (b0 : Bool) : List (String × Bool) × Bool :=
  gen_aux (fun _ b => b) sound_list b0

/-- Source `generate_potential_sources()` starting from instance flag `b0`: for
each of the 48 names, yield the name together with
`process_potential_estimates(get_sound_data(name))` computed under the
current `s1_bool` flag.  (In Python an exception would abort the
remaining yields; on this name list `get_sound_data` never raises.) -/
noncomputable def generate_potential_sources (num_sources : ℕ)
    (locate : List PyVal → List (List ℝ) → DoaResult num_sources)
    (store : String → String → List PyVal) (filepath : String) (recovered : Bool)
    (b0 : Bool) : List (String × Except PyErr (List Vec3)) × Bool :=
  gen_aux (fun nm b =>
    match get_sound_data store filepath recovered nm with
    | .error e => .error e
    | .ok d => process_potential_estimates num_sources locate d b) sound_list b0

/-- Whether an `Except` result is an exception. -/
def isErrorB {β : Type} : Except PyErr β → Bool
  | .error _ => true
  | .ok _ => false

/-- The length of the payload of a successful list result. -/
def exceptLen {β : Type} : Except PyErr (List β) → Option ℕ
  | .ok l => some l.length
  | .error _ => none

end SSLoc

namespace SSLoc

/-! ### Generic helper lemmas -/

theorem except_bind_ok {α β : Type} (a : α) (f : α → Except PyErr β) :
    (Except.ok a >>= f) = f a := rfl

theorem lookup_eq_none_of_not_mem {β : Type} (l : List (String × β)) (a : String)
    (h : a ∉ l.map Prod.fst) : l.lookup a = none := by
  induction l with
  | nil => rfl
  | cons p rest ih =>
    obtain ⟨k, b⟩ := p
    simp only [List.map_cons, List.mem_cons] at h
    push_neg at h
    simp only [List.lookup]
    have hbk : (a == k) = false := beq_eq_false_iff_ne.2 h.1
    rw [hbk]
    exact ih h.2

theorem mapM_ok_of_forall {α β : Type} (f : α → Except PyErr β) (P : β → Prop) :
    ∀ (l : List α), (∀ a ∈ l, ∃ b, f a = .ok b ∧ P b) →
      ∃ out, l.mapM f = .ok out ∧ out.length = l.length ∧ ∀ b ∈ out, P b := by
  intro l
  induction l with
  | nil => intro _; exact ⟨[], rfl, rfl, by simp⟩
  | cons a rest ih =>
    intro h
    obtain ⟨b, hb, hPb⟩ := h a (List.mem_cons_self a rest)
    obtain ⟨out, hout, hlen, hP⟩ := ih (fun x hx => h x (List.mem_cons_of_mem a hx))
    refine ⟨b :: out, ?_, by simp [hlen], ?_⟩
    · rw [List.mapM_cons, hb, except_bind_ok, hout, except_bind_ok]
      rfl
    · intro c hc
      rcases List.mem_cons.1 hc with rfl | hc
      · exact hPb
      · exact hP c hc

theorem flatten_length_const {β : Type} (c : ℕ) :
    ∀ (ll : List (List β)), (∀ x ∈ ll, x.length = c) → ll.flatten.length = c * ll.length := by
  intro ll
  induction ll with
  | nil => intro _; simp
  | cons x rest ih =>
    intro h
    simp only [List.flatten_cons, List.length_append, List.length_cons,
      h x (List.mem_cons_self x rest), ih (fun y hy => h y (List.mem_cons_of_mem x hy))]
    ring

theorem convert_to_one_list_map_vStr (args : List String) :
    convert_to_one_list (args.map PyVal.vStr) = args.map PyVal.vStr := by
  induction args with
  | nil => rfl
  | cons a rest ih =>
    simp only [List.map_cons, convert_to_one_list, flatten_val, ih]
    rfl

theorem create_microphone_locations_length :
    create_microphone_locations_list.length = 12 := rfl

/-! ### Helper: get_sound_data on an unknown name -/

theorem get_sound_data_not_mem (store : String → String → List PyVal)
    (filepath : String) (recovered : Bool) (name : String)
    (h : name ∉ source_name_keys recovered) :
    get_sound_data store filepath recovered name
      = .error (.nameError (name ++ " name not in cycle list")) := by
  unfold get_sound_data
  rw [lookup_eq_none_of_not_mem _ _ h]

/-- C9: `get_sound_data` raises a name error (the `NotFoundError` of the
spec) for every source/cycle name outside {S1,S2} x {0..23}; in
particular for `S3_Cycle0` and for `S1_Cycle24`. -/
theorem claim_C9_unknown_source_cycle_raises
    (store : String → String → List PyVal) (filepath : String) (recovered : Bool)
    (name : String) (h : name ∉ source_name_keys recovered) :
    get_sound_data store filepath recovered name
      = .error (.nameError (name ++ " name not in cycle list")) ∧
    get_sound_data store filepath recovered "S3_Cycle0"
      = .error (.nameError ("S3_Cycle0" ++ " name not in cycle list")) ∧
    get_sound_data store filepath recovered "S1_Cycle24"
      = .error (.nameError ("S1_Cycle24" ++ " name not in cycle list")) := by
  refine ⟨get_sound_data_not_mem store filepath recovered name h, ?_, ?_⟩
  · apply get_sound_data_not_mem
    cases recovered <;> decide
  · apply get_sound_data_not_mem
    cases recovered <;> decide

theorem claim_C9_witness :
    ("S3_Cycle0" ∉ source_name_keys false) ∧
    get_sound_data (fun _ _ => []) "" false "S3_Cycle0"
      = .error (.nameError ("S3_Cycle0" ++ " name not in cycle list")) :=
  ⟨by decide,
   (claim_C9_unknown_source_cycle_raises (fun _ _ => []) "" false "S3_Cycle0" (by decide)).1⟩

end SSLoc

namespace SSLoc

/-! ### C6: the generator and the persisting pool flag -/

theorem gen_aux_fst {α : Type} (f : String → Bool → α) :
    ∀ (l : List String) (b : Bool),
      gen_aux f l b
        = (((gen_aux (fun _ b => b) l b).1).map (fun p => (p.1, f p.1 p.2)),
           (gen_aux (fun _ b => b) l b).2) := by
  intro l
  induction l with
  | nil => intro b; rfl
  | cons nm rest ih =>
    intro b
    simp only [gen_aux, ih, List.map_cons]

/-- C6 counterexample: the microphone pool used for a yielded name depends
on prior calls, not only on the name.  On a fresh object the yield for
`S1_Cycle0` runs with pool flag `true` (S1 pool), but the final flag of
the completed call is `false` and persists on the object, so a second
call runs the yield for the same name `S1_Cycle0` with pool flag `false`
(S2 pool) - and the two pools differ. -/
theorem claim_C6_counterexample :
    (generate_pool_flags true).1.head? = some ("S1_Cycle0", true) ∧
    (generate_pool_flags true).2 = false ∧
    (generate_pool_flags ((generate_pool_flags true).2)).1.head?
      = some ("S1_Cycle0", false) ∧
    mics_for true ≠ mics_for false := by
  refine ⟨rfl, rfl, rfl, by decide⟩

/-- C6 (amended): pool-flag traces of `generate_potential_sources`.  Any
run of the generator yields `process_potential_estimates` under the flag
trace of `generate_pool_flags`; on a fresh object (flag `true`) the
24 S1 names run with the S1 pool and the 24 S2 names with the S2 pool,
the final flag is `false` and persists, and a call starting from flag
`false` runs every name, S1 names included, with the S2 pool. -/
theorem claim_C6_flag_traces :
    (∀ (num_sources : ℕ)
       (locate : List PyVal → List (List ℝ) → DoaResult num_sources)
       (store : String → String → List PyVal) (filepath : String)
       (recovered : Bool) (b0 : Bool),
      generate_potential_sources num_sources locate store filepath recovered b0
        = (((generate_pool_flags b0).1).map (fun p =>
             (p.1,
              match get_sound_data store filepath recovered p.1 with
              | .error e => .error e
              | .ok d => process_potential_estimates num_sources locate d p.2)),
           (generate_pool_flags b0).2)) ∧
    generate_pool_flags true
      = (sound_list.zip (List.replicate 24 true ++ List.replicate 24 false), false) ∧
    generate_pool_flags false
      = (sound_list.zip (List.replicate 48 false), false) := by
  refine ⟨?_, by decide, by decide⟩
  intro num_sources locate store filepath recovered b0
  exact gen_aux_fst _ sound_list b0

/-! ### C5: the subset schedule -/

theorem pyGet_ok {α : Type} (l : List α) (i : ℕ) (h : i < l.length) :
    pyGet l i = .ok (l.get ⟨i, h⟩) := dif_pos h

theorem pyGet_map_range {β : Type} (f : ℕ → β) (n i : ℕ) (h : i < n) :
    pyGet ((List.range n).map f) i = .ok (f i) := by
  have hlen : i < ((List.range n).map f).length := by simpa using h
  rw [pyGet_ok _ _ hlen]
  congr 1
  simp

theorem schedule_core {α : Type} (l : List α) (splits chunkCount : ℕ)
    (_hpos : 0 < splits) (hmul : 5 * splits ≤ l.length) (hcc5 : 5 ≤ chunkCount) :
    ∃ rounds : List (List α),
      (List.range splits).mapM (fun j => (List.range 5).mapM (fun k =>
        match pyGet ((List.range chunkCount).map
            (fun i => (l.drop (i * splits)).take splits)) k with
        | .error e => (.error e : Except PyErr α)
        | .ok c => pyGet c j)) = .ok rounds ∧
      rounds.flatten.length = 5 * splits := by
  have hinner : ∀ j ∈ List.range splits,
      ∃ row : List α, (List.range 5).mapM (fun k =>
        match pyGet ((List.range chunkCount).map
            (fun i => (l.drop (i * splits)).take splits)) k with
        | .error e => (.error e : Except PyErr α)
        | .ok c => pyGet c j) = .ok row ∧ row.length = 5 := by
    intro j hj
    have hjs : j < splits := List.mem_range.1 hj
    have helem : ∀ k ∈ List.range 5,
        ∃ b : α, (match pyGet ((List.range chunkCount).map
              (fun i => (l.drop (i * splits)).take splits)) k with
            | .error e => (.error e : Except PyErr α)
            | .ok c => pyGet c j) = .ok b ∧ True := by
      intro k hk
      have hk5 : k < 5 := List.mem_range.1 hk
      rw [pyGet_map_range (fun i => (l.drop (i * splits)).take splits) chunkCount k
        (lt_of_lt_of_le hk5 hcc5)]
      have e1 : k * splits + splits ≤ 5 * splits := by
        have h5 : k + 1 ≤ 5 := by omega
        calc k * splits + splits = (k + 1) * splits := by ring
        _ ≤ 5 * splits := Nat.mul_le_mul_right splits h5
      have hb : j < ((l.drop (k * splits)).take splits).length := by
        rw [List.length_take, List.length_drop]
        omega
      exact ⟨_, pyGet_ok _ j hb, trivial⟩
    obtain ⟨row, hrow, hrl, _⟩ := mapM_ok_of_forall _ (fun _ => True) (List.range 5) helem
    exact ⟨row, hrow, by rw [hrl, List.length_range]⟩
  obtain ⟨rounds, hrounds, hrlen, hrall⟩ :=
    mapM_ok_of_forall _ (fun row : List α => row.length = 5) (List.range splits) hinner
  refine ⟨rounds, hrounds, ?_⟩
  rw [flatten_length_const 5 rounds hrall, hrlen, List.length_range]

theorem scheduled_subsets_length {α : Type} (l : List α) (h : 5 ≤ l.length) :
    exceptLen (scheduled_subsets l) = some (5 * (l.length / 5)) := by
  have hpos : 0 < l.length / 5 := Nat.div_pos h (by norm_num)
  have hne : ¬(l.length / 5 = 0) := by omega
  have hmul : 5 * (l.length / 5) ≤ l.length := by
    rw [Nat.mul_comm]
    exact Nat.div_mul_le_self l.length 5
  have hcc5 : 5 ≤ (l.length + l.length / 5 - 1) / (l.length / 5) := by
    rw [Nat.le_div_iff_mul_le hpos]
    omega
  obtain ⟨rounds, hrounds, hflat⟩ :=
    schedule_core l (l.length / 5) ((l.length + l.length / 5 - 1) / (l.length / 5))
      hpos hmul hcc5
  simp only [scheduled_subsets]
  rw [if_neg hne, hrounds]
  show some rounds.flatten.length = some (5 * (l.length / 5))
  rw [hflat]

/-- C5 counterexample: a pool of 8 microphones yields 56 subsets of size
3; 56 is not divisible by 5, yet `scheduled_subsets` (the chunk-and-
thread dispatch of `process_potential_estimates`) returns successfully
with only 55 subsets: no error is raised and one subset is silently
dropped. -/
theorem claim_C5_counterexample :
    (combinations 3 (List.range 8)).length = 56 ∧
    ¬(56 % 5 = 0) ∧
    isErrorB (scheduled_subsets (combinations 3 (List.range 8))) = false ∧
    exceptLen (scheduled_subsets (combinations 3 (List.range 8))) = some 55 := by
  refine ⟨by decide, by decide, by decide, by decide⟩

/-- C5 (amended): for every subset list with at least 5 subsets the
schedule raises no error and dispatches exactly `5 * (count / 5)`
subsets - when the count is not divisible by 5 the remaining
`count % 5` subsets are silently dropped rather than an error being
raised. -/
theorem claim_C5_schedule_silently_drops {α : Type} (l : List α)
    (h : 5 ≤ l.length) :
    exceptLen (scheduled_subsets l) = some (5 * (l.length / 5)) :=
  scheduled_subsets_length l h

theorem claim_C5_witness :
    5 ≤ (List.range 7).length ∧
    exceptLen (scheduled_subsets (List.range 7)) = some (5 * ((List.range 7).length / 5)) :=
  ⟨by decide, claim_C5_schedule_silently_drops (List.range 7) (by decide)⟩

end SSLoc

namespace SSLoc

/-! ### Microphone matching: helper lemmas -/

theorem mic_names_nodup : mic_names.Nodup := by decide

theorem lookup_zip_mem {β : Type} (d : β) :
    ∀ (ns : List String) (vs : List β) (a : String), ns.Nodup → a ∈ ns →
      vs.length = ns.length →
      (ns.zip vs).lookup a = some (vs.getD (ns.indexOf a) d) := by
  intro ns
  induction ns with
  | nil => intro vs a _ ha _; exact absurd ha (List.not_mem_nil a)
  | cons n rest ih =>
    intro vs a hnd ha hlen
    match vs with
    | [] => simp at hlen
    | v :: vt =>
      by_cases han : a = n
      · subst han
        simp only [List.zip_cons_cons, List.lookup, beq_self_eq_true]
        rw [List.indexOf_cons_self, List.getD_cons_zero]
      · have hbeq : (a == n) = false := beq_eq_false_iff_ne.2 han
        simp only [List.zip_cons_cons, List.lookup, hbeq]
        have ha2 : a ∈ rest := by
          rcases List.mem_cons.1 ha with h | h
          · exact absurd h han
          · exact h
        rw [List.indexOf_cons_ne rest (fun hh => han hh.symm), List.getD_cons_succ]
        exact ih vt a (List.Nodup.of_cons hnd) ha2 (by simpa using hlen)

theorem lookup_zip_not_mem {β : Type} (ns : List String) (vs : List β) (a : String)
    (ha : a ∉ ns) (hlen : vs.length = ns.length) :
    (ns.zip vs).lookup a = none := by
  apply lookup_eq_none_of_not_mem
  rw [List.map_fst_zip ns vs (le_of_eq hlen.symm)]
  exact ha

theorem getD_zip {γ δ : Type} (xs : List γ) (ys : List δ) (i : ℕ) (dx : γ) (dy : δ)
    (hx : i < xs.length) (hy : i < ys.length) :
    (xs.zip ys).getD i (dx, dy) = (xs.getD i dx, ys.getD i dy) := by
  have hz : i < (xs.zip ys).length := by
    rw [List.length_zip]
    omega
  rw [List.getD_eq_getElem _ _ hz, List.getD_eq_getElem _ _ hx, List.getD_eq_getElem _ _ hy]
  exact List.getElem_zip

/-- The name → (location, signal row) dictionary built by
`get_mic_match_with_sound_data`. -/
noncomputable def mic_dict (data : List PyVal) : List (String × (List ℝ × PyVal)) :=
  mic_names.zip (create_microphone_locations_list.zip data)

theorem mic_dict_lookup_mem (data : List PyVal) (h12 : data.length = 12) (a : String)
    (hm : a ∈ mic_names) :
    (mic_dict data).lookup a
      = some (create_microphone_locations_list.getD (mic_names.indexOf a) [],
              data.getD (mic_names.indexOf a) PyVal.vNone) := by
  have hzlen : (create_microphone_locations_list.zip data).length = mic_names.length := by
    rw [List.length_zip, create_microphone_locations_length, h12]
    rfl
  rw [mic_dict, lookup_zip_mem ([], PyVal.vNone) mic_names _ a mic_names_nodup hm hzlen]
  have hidx : mic_names.indexOf a < 12 := by
    have := List.indexOf_lt_length.2 hm
    simpa using this
  rw [getD_zip _ _ _ _ _ (by rw [create_microphone_locations_length]; omega) (by omega)]

theorem mic_dict_lookup_not_mem (data : List PyVal) (h12 : data.length = 12) (a : String)
    (hm : a ∉ mic_names) : (mic_dict data).lookup a = none := by
  apply lookup_zip_not_mem
  · exact hm
  · rw [List.length_zip, create_microphone_locations_length, h12]
    rfl

theorem hits_char (data : List PyVal) (h12 : data.length = 12) :
    ∀ (args : List String),
      args.filterMap (fun a => (mic_dict data).lookup a)
        = (args.filter (fun a => mic_names.contains a)).map
            (fun a => (create_microphone_locations_list.getD (mic_names.indexOf a) [],
                       data.getD (mic_names.indexOf a) PyVal.vNone)) := by
  intro args
  induction args with
  | nil => rfl
  | cons a rest ih =>
    simp only [List.filterMap_cons, List.filter_cons]
    by_cases hm : a ∈ mic_names
    · have hc : mic_names.contains a = true := List.elem_eq_true_of_mem hm
      rw [mic_dict_lookup_mem data h12 a hm, hc, ih]
      simp
    · have hc : mic_names.contains a = false := by simp [hm]
      rw [mic_dict_lookup_not_mem data h12 a hm, hc, ih]
      simp

/-- Common success form of `get_mic_match_with_sound_data` on a 12-row
matrix: the requested names are matched in request order, unknown names
are silently skipped. -/
theorem get_mic_match_found (data : List PyVal) (args : List String)
    (h1 : signal_empty_guard data = false)
    (h2 : deep_contains_none_list data = false)
    (h3 : has_empty_string_row data = false)
    (h4 : args ≠ [])
    (h12 : data.length = 12) :
    get_mic_match_with_sound_data data args
      = .ok (.found
          ((args.filter (fun a => mic_names.contains a)).map
            (fun a => data.getD (mic_names.indexOf a) PyVal.vNone))
          ((args.filter (fun a => mic_names.contains a)).map
            (fun a => create_microphone_locations_list.getD (mic_names.indexOf a) []))) := by
  unfold get_mic_match_with_sound_data
  rw [h1, h2, h3, convert_to_one_list_map_vStr]
  have hne : ((args.map PyVal.vStr).isEmpty) = false := by
    cases args with
    | nil => exact absurd rfl h4
    | cons x xs => rfl
  rw [hne]
  have hlen : create_microphone_locations_list.length = data.length := by
    rw [create_microphone_locations_length, h12]
  simp only [Bool.false_eq_true, if_false, if_pos hlen]
  have := hits_char data h12 args
  rw [show (mic_names.zip (create_microphone_locations_list.zip data)) = mic_dict data from rfl]
  rw [this, List.map_map, List.map_map]
  rfl

end SSLoc

namespace SSLoc

/-! ### C1, C8, C10: get_mic_match_with_sound_data -/

/-- C1 (amended): on a row-count mismatch (with the earlier guards
passing), `get_mic_match_with_sound_data` does not raise; it RETURNS the
descriptive mismatch message as an ordinary string value. -/
theorem claim_C1_mismatch_returned_not_raised (data : List PyVal) (args : List String)
    (h1 : signal_empty_guard data = false)
    (h2 : deep_contains_none_list data = false)
    (h3 : has_empty_string_row data = false)
    (h4 : args ≠ [])
    (h5 : data.length ≠ 12) :
    get_mic_match_with_sound_data data args
      = .ok (.mismatch
          "Error. Mismatch in length of microphone location list and length of signal list.") ∧
    isErrorB (get_mic_match_with_sound_data data args) = false := by
  have main : get_mic_match_with_sound_data data args
      = .ok (.mismatch
          "Error. Mismatch in length of microphone location list and length of signal list.") := by
    unfold get_mic_match_with_sound_data
    rw [h1, h2, h3, convert_to_one_list_map_vStr]
    have hne : ((args.map PyVal.vStr).isEmpty) = false := by
      cases args with
      | nil => exact absurd rfl h4
      | cons x xs => rfl
    rw [hne]
    have hlen : ¬(create_microphone_locations_list.length = data.length) := by
      rw [create_microphone_locations_length]
      omega
    simp only [Bool.false_eq_true, if_false, if_neg hlen]
  exact ⟨main, by rw [main]; rfl⟩

/-- A well-formed signal matrix with 13 rows (one too many). -/
noncomputable def data13 : List PyVal := List.replicate 13 (.vList [.vFloat 0])

/-- C1 counterexample: on a 13-row otherwise well-formed matrix the
function returns the mismatch string as a NON-error value - no
exception is raised, contradicting the claim that a `ValidationError`
is raised to the caller. -/
theorem claim_C1_counterexample :
    get_mic_match_with_sound_data data13 ["mic1"]
      = .ok (.mismatch
          "Error. Mismatch in length of microphone location list and length of signal list.") ∧
    isErrorB (get_mic_match_with_sound_data data13 ["mic1"]) = false :=
  ⟨rfl, rfl⟩

theorem claim_C1_witness :
    (signal_empty_guard data13 = false ∧ data13.length ≠ 12) ∧
    (get_mic_match_with_sound_data data13 ["mic1"]
      = .ok (.mismatch
          "Error. Mismatch in length of microphone location list and length of signal list.") ∧
     isErrorB (get_mic_match_with_sound_data data13 ["mic1"]) = false) :=
  ⟨⟨rfl, by rw [data13, List.length_replicate]; omega⟩,
   claim_C1_mismatch_returned_not_raised data13 ["mic1"] rfl rfl rfl
     (by simp) (by rw [data13, List.length_replicate]; omega)⟩

/-- C8: for every 12-row well-formed signal matrix and every list of
known microphone names, the returned signal list and location list are
exactly in the requested order (the j-th output entries belong to the
j-th requested name). -/
theorem claim_C8_request_order_preserved (data : List PyVal) (args : List String)
    (h1 : signal_empty_guard data = false)
    (h2 : deep_contains_none_list data = false)
    (h3 : has_empty_string_row data = false)
    (h4 : args ≠ [])
    (h12 : data.length = 12)
    (hknown : ∀ a ∈ args, mic_names.contains a = true) :
    get_mic_match_with_sound_data data args
      = .ok (.found
          (args.map (fun a => data.getD (mic_names.indexOf a) PyVal.vNone))
          (args.map (fun a => create_microphone_locations_list.getD (mic_names.indexOf a) []))) := by
  rw [get_mic_match_found data args h1 h2 h3 h4 h12, List.filter_eq_self.2 hknown]

/-- A 12-row signal matrix with recognizable integer rows. -/
noncomputable def data12 : List PyVal := (List.range 12).map (fun j => PyVal.vInt j)

theorem claim_C8_witness :
    get_mic_match_with_sound_data data12 ["mic3", "mic1"]
      = .ok (.found
          (["mic3", "mic1"].map (fun a => data12.getD (mic_names.indexOf a) PyVal.vNone))
          (["mic3", "mic1"].map
            (fun a => create_microphone_locations_list.getD (mic_names.indexOf a) []))) :=
  claim_C8_request_order_preserved data12 ["mic3", "mic1"] rfl rfl rfl
    (by simp) (by decide) (by decide)

/-- C10: on a 12-row well-formed matrix, requested names that are not
known identifiers are silently skipped: no error is raised, and the
returned lists contain exactly the entries of the recognized names in
request order (so they may be shorter than the request). -/
theorem claim_C10_unknown_names_silently_skipped (data : List PyVal) (args : List String)
    (h1 : signal_empty_guard data = false)
    (h2 : deep_contains_none_list data = false)
    (h3 : has_empty_string_row data = false)
    (h4 : args ≠ [])
    (h12 : data.length = 12) :
    get_mic_match_with_sound_data data args
      = .ok (.found
          ((args.filter (fun a => mic_names.contains a)).map
            (fun a => data.getD (mic_names.indexOf a) PyVal.vNone))
          ((args.filter (fun a => mic_names.contains a)).map
            (fun a => create_microphone_locations_list.getD (mic_names.indexOf a) []))) ∧
    isErrorB (get_mic_match_with_sound_data data args) = false := by
  have main := get_mic_match_found data args h1 h2 h3 h4 h12
  exact ⟨main, by rw [main]; rfl⟩

theorem claim_C10_witness :
    get_mic_match_with_sound_data data12 ["mic3", "mic99", "mic1"]
      = .ok (.found
          ((["mic3", "mic99", "mic1"].filter (fun a => mic_names.contains a)).map
            (fun a => data12.getD (mic_names.indexOf a) PyVal.vNone))
          ((["mic3", "mic99", "mic1"].filter (fun a => mic_names.contains a)).map
            (fun a => create_microphone_locations_list.getD (mic_names.indexOf a) []))) ∧
    isErrorB (get_mic_match_with_sound_data data12 ["mic3", "mic99", "mic1"]) = false :=
  claim_C10_unknown_names_silently_skipped data12 ["mic3", "mic99", "mic1"] rfl rfl rfl
    (by simp) (by decide)

end SSLoc

namespace SSLoc

/-! ### C7: get_centroid -/

theorem convert_to_one_list_leaves :
    ∀ (r : List PyVal), (∀ x ∈ r, x.isLeafB = true) → convert_to_one_list r = r := by
  intro r
  induction r with
  | nil => intro _; rfl
  | cons x xs ih =>
    intro h
    have hx := h x (List.mem_cons_self x xs)
    have hxs := ih (fun y hy => h y (List.mem_cons_of_mem x hy))
    cases x with
    | vList l => simp [PyVal.isLeafB] at hx
    | vNone => simp only [convert_to_one_list, flatten_val, hxs]; rfl
    | vStr s => simp only [convert_to_one_list, flatten_val, hxs]; rfl
    | vInt n => simp only [convert_to_one_list, flatten_val, hxs]; rfl
    | vFloat t => simp only [convert_to_one_list, flatten_val, hxs]; rfl

theorem convert_to_one_list_map_vFloat (row : List ℝ) :
    convert_to_one_list (row.map PyVal.vFloat) = row.map PyVal.vFloat := by
  apply convert_to_one_list_leaves
  intro x hx
  obtain ⟨t, _, rfl⟩ := List.mem_map.1 hx
  rfl

theorem convert_to_one_list_loc_rows :
    ∀ (rows : List (List ℝ)),
      convert_to_one_list (rows.map loc_to_py) = rows.flatten.map PyVal.vFloat := by
  intro rows
  induction rows with
  | nil => rfl
  | cons r rs ih =>
    simp only [List.map_cons, convert_to_one_list, flatten_val, loc_to_py,
      convert_to_one_list_map_vFloat, ih, List.flatten_cons, List.map_append]

theorem convert_to_one_list_vlist_rows :
    ∀ (rows : List (List PyVal)), (∀ r ∈ rows, ∀ x ∈ r, x.isLeafB = true) →
      convert_to_one_list (rows.map PyVal.vList) = rows.flatten := by
  intro rows
  induction rows with
  | nil => intro _; rfl
  | cons r rs ih =>
    intro h
    simp only [List.map_cons, convert_to_one_list, flatten_val,
      convert_to_one_list_leaves r (h r (List.mem_cons_self r rs)),
      ih (fun y hy => h y (List.mem_cons_of_mem r hy)), List.flatten_cons]

theorem py_row_loc_to_py : ∀ (r : List ℝ), py_row (loc_to_py r) = r := by
  intro r
  induction r with
  | nil => rfl
  | cons t ts ih =>
    have ih2 := ih
    simp only [loc_to_py, py_row, List.map_cons] at ih2 ⊢
    rw [ih2]

theorem getD_zipWith_add (a b : List ℝ) (hab : a.length = b.length) (j : ℕ) :
    (List.zipWith (· + ·) a b).getD j 0 = a.getD j 0 + b.getD j 0 := by
  by_cases hj : j < a.length
  · rw [List.getD_eq_getElem _ _ (by rw [List.length_zipWith]; omega),
      List.getD_eq_getElem _ _ hj, List.getD_eq_getElem _ _ (by omega : j < b.length)]
    exact List.getElem_zipWith
  · rw [List.getD_eq_default _ _ (by rw [List.length_zipWith]; omega),
      List.getD_eq_default _ _ (by omega), List.getD_eq_default _ _ (by omega)]
    ring

end SSLoc

namespace SSLoc

theorem np_sum_axis0_length (d : ℕ) :
    ∀ (rows : List (List ℝ)), rows ≠ [] → (∀ r ∈ rows, r.length = d) →
      (np_sum_axis0 rows).length = d := by
  intro rows
  induction rows with
  | nil => intro h _; exact absurd rfl h
  | cons r rs ih =>
    intro _ hlen
    match rs, ih with
    | [], _ => exact hlen r (List.mem_cons_self r [])
    | s :: st, ih =>
      show (List.zipWith (· + ·) r (np_sum_axis0 (s :: st))).length = d
      rw [List.length_zipWith,
        ih (List.cons_ne_nil s st) (fun y hy => hlen y (List.mem_cons_of_mem r hy)),
        hlen r (List.mem_cons_self r (s :: st))]
      omega

theorem np_sum_axis0_getD (d : ℕ) :
    ∀ (rows : List (List ℝ)), rows ≠ [] → (∀ r ∈ rows, r.length = d) → ∀ (j : ℕ),
      (np_sum_axis0 rows).getD j 0 = (rows.map (fun r => r.getD j 0)).sum := by
  intro rows
  induction rows with
  | nil => intro h _; exact absurd rfl h
  | cons r rs ih =>
    intro _ hlen j
    match rs, ih with
    | [], _ =>
      show r.getD j 0 = List.sum [r.getD j 0]
      rw [List.sum_cons, List.sum_nil, add_zero]
    | s :: st, ih =>
      show (List.zipWith (· + ·) r (np_sum_axis0 (s :: st))).getD j 0 = _
      rw [getD_zipWith_add r (np_sum_axis0 (s :: st))
          (by rw [np_sum_axis0_length d (s :: st) (List.cons_ne_nil s st)
                (fun y hy => hlen y (List.mem_cons_of_mem r hy)),
              hlen r (List.mem_cons_self r (s :: st))]),
        ih (List.cons_ne_nil s st) (fun y hy => hlen y (List.mem_cons_of_mem r hy)) j]
      simp [List.sum_cons]

/-- The coordinate-wise arithmetic mean in the words of the spec:
coordinate `j` of the centroid is the sum of coordinate `j` over the
locations, divided by the number of locations. -/
noncomputable def claim_mean (rows : List (List ℝ)) (j : ℕ) : ℝ :=
  (rows.map (fun r => r.getD j 0)).sum / (rows.length : ℝ)

theorem get_centroid_mean_eq_claim (rows : List (List ℝ)) (d : ℕ)
    (hne : rows ≠ []) (hlen : ∀ r ∈ rows, r.length = d) :
    get_centroid_mean rows = (List.range d).map (fun j => claim_mean rows j) := by
  have hl : (get_centroid_mean rows).length = d := by
    rw [get_centroid_mean, List.length_map, np_sum_axis0_length d rows hne hlen]
  apply List.ext_getElem
  · rw [hl, List.length_map, List.length_range]
  · intro j h1 h2
    have hj : j < d := by rwa [hl] at h1
    have hns : j < (np_sum_axis0 rows).length := by
      rw [np_sum_axis0_length d rows hne hlen]
      exact hj
    simp only [get_centroid_mean, List.getElem_map, List.getElem_range]
    rw [← List.getD_eq_getElem (np_sum_axis0 rows) 0 hns,
      np_sum_axis0_getD d rows hne hlen j]
    rfl

theorem map_getD_range (l : List ℝ) :
    (List.range l.length).map (fun j => l.getD j 0) = l := by
  apply List.ext_getElem
  · rw [List.length_map, List.length_range]
  · intro j h1 h2
    have hj : j < l.length := by simpa using h1
    rw [List.getElem_map, List.getElem_range, List.getD_eq_getElem l 0 hj]

/-- Success form of `get_centroid` on a non-empty list of equal-length
float locations: the guards pass and the result is the coordinate-wise
mean `np.sum(..., axis=0) / len(...)`. -/
theorem get_centroid_float_rows (rows : List (List ℝ)) (d : ℕ)
    (hne : rows ≠ []) (hd : 0 < d) (hlen : ∀ r ∈ rows, r.length = d) :
    get_centroid (rows.map loc_to_py)
      = .ok (.vList ((get_centroid_mean rows).map PyVal.vFloat)) := by
  have hflat : convert_to_one_list [PyVal.vList (rows.map loc_to_py)]
      = rows.flatten.map PyVal.vFloat := by
    show flatten_val (PyVal.vList (rows.map loc_to_py)) ++ convert_to_one_list [] = _
    rw [flatten_val]
    show convert_to_one_list (rows.map loc_to_py) ++ [] = _
    rw [List.append_nil, convert_to_one_list_loc_rows]
  have hflatne : rows.flatten ≠ [] := by
    match rows, hne with
    | r :: rs, _ =>
      have hr : r.length = d := hlen r (List.mem_cons_self r rs)
      intro hcontra
      rw [List.flatten_cons] at hcontra
      have := List.append_eq_nil.1 hcontra
      rw [this.1] at hr
      simp at hr
      omega
  simp only [get_centroid]
  rw [hflat]
  have g1 : ((rows.flatten.map PyVal.vFloat).isEmpty) = false := by
    match h : rows.flatten with
    | [] => exact absurd h hflatne
    | x :: xs => rfl
  have g2 : (rows.flatten.map PyVal.vFloat).any PyVal.isNoneB = false := by
    rw [Bool.eq_false_iff]
    intro hcontra
    obtain ⟨x, hx, hpx⟩ := List.any_eq_true.1 hcontra
    obtain ⟨t, _, rfl⟩ := List.mem_map.1 hx
    simp [PyVal.isNoneB] at hpx
  have hil : ∀ (rs : List (List ℝ)),
      (rs.map loc_to_py).filterMap (fun x =>
        match x with
        | PyVal.vList r => some r
        | _ => none) = rs.map (fun r => r.map PyVal.vFloat) := by
    intro rs
    induction rs with
    | nil => rfl
    | cons r rt ih =>
      simp only [List.map_cons, List.filterMap_cons, loc_to_py]
      rw [ih]
  have g3 : check_list_of_lists_are_same_length [PyVal.vList (rows.map loc_to_py)] = true := by
    unfold check_list_of_lists_are_same_length
    have hil2 : inner_lists [PyVal.vList (rows.map loc_to_py)]
        = rows.map (fun r => r.map PyVal.vFloat) := by
      show (rows.map loc_to_py).filterMap _ ++ inner_lists [] = _
      rw [hil rows]
      exact List.append_nil _
    rw [hil2]
    match rows, hlen with
    | [], _ => rfl
    | r0 :: rest, hlen =>
      simp only [List.map_cons]
      apply List.all_eq_true.2
      intro s hs
      obtain ⟨y, hy, rfl⟩ := List.mem_map.1 hs
      rw [List.length_map, List.length_map,
        hlen y (List.mem_cons_of_mem r0 hy), hlen r0 (List.mem_cons_self r0 rest)]
      exact beq_self_eq_true d
  have g4 : (rows.flatten.map PyVal.vFloat).all PyVal.isFloatB = true := by
    apply List.all_eq_true.2
    intro y hy
    obtain ⟨t, _, rfl⟩ := List.mem_map.1 hy
    rfl
  have g5 : (rows.map loc_to_py).all PyVal.isFloatListB = true := by
    apply List.all_eq_true.2
    intro y hy
    obtain ⟨r, _, rfl⟩ := List.mem_map.1 hy
    show (r.map PyVal.vFloat).all PyVal.isFloatB = true
    apply List.all_eq_true.2
    intro x hx
    obtain ⟨t, _, rfl⟩ := List.mem_map.1 hx
    rfl
  have hrows : (rows.map loc_to_py).map py_row = rows := by
    rw [List.map_map]
    have : ∀ r ∈ rows, (py_row ∘ loc_to_py) r = id r := fun r _ => py_row_loc_to_py r
    rw [List.map_congr_left this, List.map_id]
  rw [g1, g2, g3, g4, g5, hrows]
  simp

end SSLoc

namespace SSLoc

/-- Whether all location rows have the same length (the condition the
same-length guard tests). -/
def lengths_all_eq (rows : List (List PyVal)) : Bool :=
  match rows with
  | [] => true
  | r :: rs => rs.all (fun s => s.length == r.length)

theorem filterMap_vlist :
    ∀ (rs : List (List PyVal)),
      (rs.map PyVal.vList).filterMap (fun x =>
        match x with
        | PyVal.vList r => some r
        | _ => none) = rs := by
  intro rs
  induction rs with
  | nil => rfl
  | cons r rt ih =>
    simp only [List.map_cons, List.filterMap_cons]
    rw [ih]

theorem get_centroid_error_iff (rows : List (List PyVal))
    (hleaf : ∀ r ∈ rows, ∀ x ∈ r, x.isLeafB = true) :
    isErrorB (get_centroid (rows.map PyVal.vList)) = true ↔
      (rows.flatten = [] ∨ rows.flatten.any PyVal.isNoneB = true ∨
       lengths_all_eq rows = false ∨ rows.flatten.all PyVal.isFloatB = false) := by
  have hflat : convert_to_one_list [PyVal.vList (rows.map PyVal.vList)]
      = rows.flatten := by
    show flatten_val (PyVal.vList (rows.map PyVal.vList)) ++ convert_to_one_list [] = _
    rw [flatten_val]
    show convert_to_one_list (rows.map PyVal.vList) ++ [] = _
    rw [List.append_nil, convert_to_one_list_vlist_rows rows hleaf]
  have hcheck : check_list_of_lists_are_same_length [PyVal.vList (rows.map PyVal.vList)]
      = lengths_all_eq rows := by
    unfold check_list_of_lists_are_same_length lengths_all_eq
    have hil : inner_lists [PyVal.vList (rows.map PyVal.vList)] = rows := by
      show (rows.map PyVal.vList).filterMap _ ++ inner_lists [] = _
      rw [filterMap_vlist rows]
      exact List.append_nil _
    rw [hil]
  simp only [get_centroid]
  rw [hflat, hcheck]
  by_cases h1 : rows.flatten = []
  · have hE : rows.flatten.isEmpty = true := by rw [h1]; rfl
    simp [hE, isErrorB, h1]
  · have hE : rows.flatten.isEmpty = false := by
      match hh : rows.flatten with
      | [] => exact absurd hh h1
      | x :: xs => rfl
    rw [hE]
    by_cases h2 : rows.flatten.any PyVal.isNoneB = true
    · simp [h2, isErrorB, h1]
    · have h2f : rows.flatten.any PyVal.isNoneB = false := by
        cases hx : rows.flatten.any PyVal.isNoneB with
        | true => exact absurd hx h2
        | false => rfl
      rw [h2f]
      by_cases h3 : lengths_all_eq rows = false
      · simp [h3, isErrorB, h1, h2f]
      · have h3t : lengths_all_eq rows = true := by
          cases hx : lengths_all_eq rows with
          | true => rfl
          | false => exact absurd hx h3
        rw [h3t]
        by_cases h4 : rows.flatten.all PyVal.isFloatB = false
        · simp [h4, isErrorB, h1, h2f, h3t]
        · have h4t : rows.flatten.all PyVal.isFloatB = true := by
            cases hx : rows.flatten.all PyVal.isFloatB with
            | true => rfl
            | false => exact absurd hx h4
          rw [h4t]
          have hfl : (rows.map PyVal.vList).all PyVal.isFloatListB = true := by
            apply List.all_eq_true.2
            intro y hy
            obtain ⟨r, hr, rfl⟩ := List.mem_map.1 hy
            show r.all PyVal.isFloatB = true
            apply List.all_eq_true.2
            intro x hx
            exact List.all_eq_true.1 h4t x (List.mem_flatten.2 ⟨r, hr, hx⟩)
          rw [hfl]
          simp [isErrorB, h1, h2f, h3t, h4t]

/-- C7 (amended): on a non-empty group of equal-length FLOAT locations,
`get_centroid` returns the coordinate-wise arithmetic mean (a group of
one location returns that location); for groups of leaf-valued location
rows it raises exactly when the flattened input is empty, contains
`None`, the rows have differing lengths, or some coordinate is not a
float (in particular, integer coordinates raise). -/
theorem claim_C7_centroid_mean_and_errors :
    (∀ (rows : List (List ℝ)) (d : ℕ), rows ≠ [] → 0 < d →
      (∀ r ∈ rows, r.length = d) →
      get_centroid (rows.map loc_to_py)
        = .ok (.vList (((List.range d).map (fun j => claim_mean rows j)).map PyVal.vFloat))) ∧
    (∀ l : List ℝ, l ≠ [] →
      get_centroid ([l].map loc_to_py) = .ok (.vList (l.map PyVal.vFloat))) ∧
    (∀ rows : List (List PyVal), (∀ r ∈ rows, ∀ x ∈ r, x.isLeafB = true) →
      (isErrorB (get_centroid (rows.map PyVal.vList)) = true ↔
        (rows.flatten = [] ∨ rows.flatten.any PyVal.isNoneB = true ∨
         lengths_all_eq rows = false ∨ rows.flatten.all PyVal.isFloatB = false))) := by
  refine ⟨?_, ?_, get_centroid_error_iff⟩
  · intro rows d hne hd hlen
    rw [get_centroid_float_rows rows d hne hd hlen,
      get_centroid_mean_eq_claim rows d hne hlen]
  · intro l hne
    have hd : 0 < l.length := List.length_pos.2 hne
    have hlen : ∀ r ∈ [l], r.length = l.length := by
      intro r hr
      rcases List.mem_cons.1 hr with rfl | hr2
      · rfl
      · exact absurd hr2 (List.not_mem_nil r)
    rw [get_centroid_float_rows [l] l.length (by simp) hd hlen,
      get_centroid_mean_eq_claim [l] l.length (by simp) hlen]
    have hcm : ∀ j, claim_mean [l] j = l.getD j 0 := by
      intro j
      simp [claim_mean]
    have : (List.range l.length).map (fun j => claim_mean [l] j)
        = (List.range l.length).map (fun j => l.getD j 0) :=
      List.map_congr_left (fun j _ => hcm j)
    rw [this, map_getD_range]

/-- C7 counterexample: a single location with INTEGER coordinates is a
non-empty, equal-length, numeric location group, yet `get_centroid`
raises a type error (`isinstance(mic_loc, float)` rejects ints), so the
claim's "raises exactly for non-numeric input" is false as stated. -/
theorem claim_C7_counterexample :
    get_centroid [PyVal.vList [PyVal.vInt 1, PyVal.vInt 2, PyVal.vInt 3]]
      = .error (.typeError "Error. Microphone location list does not contain a float type.") ∧
    (convert_to_one_list
      [PyVal.vList [PyVal.vList [PyVal.vInt 1, PyVal.vInt 2, PyVal.vInt 3]]]).isEmpty = false ∧
    (convert_to_one_list
      [PyVal.vList [PyVal.vList [PyVal.vInt 1, PyVal.vInt 2, PyVal.vInt 3]]]).any
        PyVal.isNoneB = false ∧
    check_list_of_lists_are_same_length
      [PyVal.vList [PyVal.vList [PyVal.vInt 1, PyVal.vInt 2, PyVal.vInt 3]]] = true ∧
    (convert_to_one_list
      [PyVal.vList [PyVal.vList [PyVal.vInt 1, PyVal.vInt 2, PyVal.vInt 3]]]).all
        PyVal.isNumericB = true :=
  ⟨rfl, rfl, rfl, rfl, rfl⟩

theorem claim_C7_witness :
    get_centroid ([[(1 : ℝ), 2, 3], [3, 4, 5]].map loc_to_py)
      = .ok (.vList (((List.range 3).map
          (fun j => claim_mean [[(1 : ℝ), 2, 3], [3, 4, 5]] j)).map PyVal.vFloat)) ∧
    get_centroid ([[(7 : ℝ), 8, 9]].map loc_to_py)
      = .ok (.vList ([(7 : ℝ), 8, 9].map PyVal.vFloat)) ∧
    (isErrorB (get_centroid ([[PyVal.vNone]].map PyVal.vList)) = true ↔
      ([[PyVal.vNone]].flatten = [] ∨ [[PyVal.vNone]].flatten.any PyVal.isNoneB = true ∨
       lengths_all_eq [[PyVal.vNone]] = false ∨
       [[PyVal.vNone]].flatten.all PyVal.isFloatB = false)) := by
  refine ⟨?_, ?_, ?_⟩
  · apply claim_C7_centroid_mean_and_errors.1 [[(1 : ℝ), 2, 3], [3, 4, 5]] 3
      (by simp) (by norm_num)
    intro r hr
    rcases List.mem_cons.1 hr with rfl | hr
    · rfl
    rcases List.mem_cons.1 hr with rfl | hr
    · rfl
    exact absurd hr (List.not_mem_nil r)
  · exact claim_C7_centroid_mean_and_errors.2.1 [(7 : ℝ), 8, 9] (by simp)
  · apply claim_C7_centroid_mean_and_errors.2.2 [[PyVal.vNone]]
    intro r hr
    rcases List.mem_cons.1 hr with rfl | hr
    · intro x hx
      rcases List.mem_cons.1 hx with rfl | hx
      · rfl
      · exact absurd hx (List.not_mem_nil x)
    · exact absurd hr (List.not_mem_nil r)

end SSLoc

namespace SSLoc

/-! ### C3: split_and_conquer -/

theorem mapM_ok_map {α β : Type} (f : α → Except PyErr β) (g : α → β) :
    ∀ (l : List α), (∀ a ∈ l, f a = .ok (g a)) → l.mapM f = .ok (l.map g) := by
  intro l
  induction l with
  | nil => intro _; rfl
  | cons a rest ih =>
    intro h
    rw [List.mapM_cons, h a (List.mem_cons_self a rest), except_bind_ok,
      ih (fun x hx => h x (List.mem_cons_of_mem a hx)), except_bind_ok]
    rfl

theorem range_map_take_one {γ : Type} (l : List γ) :
    (List.range l.length).map (fun i => (l.drop (i * 1)).take 1)
      = l.map (fun u => [u]) := by
  apply List.ext_getElem
  · simp
  · intro i h1 h2
    simp only [List.getElem_map, List.getElem_range, mul_one]
    have hi : i < l.length := by simpa using h2
    rw [List.take_one_drop_eq_of_lt_length hi]
    simp

/-- C3: for every `numSources > 1`, `split_and_conquer` splits the
per-source unit vectors (the rows of the transposed cartesian array)
into `numSources` singleton groups, scales each group by every radius
value, adds the SAME shared centroid to every group, and concatenates
the groups, producing exactly `numSources * len(radius)` points; with
`numSources = 2` the first and second half use the same centroid `c` by
construction. -/
theorem claim_C3_split_and_conquer_groups (n : ℕ) (hn : 1 < n) (c : Vec3)
    (cart : List Vec3) (hlen : cart.length = n) :
    split_and_conquer n c cart
      = .ok ((cart.map (fun u => radius.map (fun r => vadd (vsmul r u) c))).flatten) ∧
    exceptLen (split_and_conquer n c cart) = some (n * radius.length) := by
  have hn0 : 0 < n := by omega
  have main : split_and_conquer n c cart
      = .ok ((cart.map (fun u => radius.map (fun r => vadd (vsmul r u) c))).flatten) := by
    simp only [split_and_conquer]
    have hmod : ¬(cart.length % n ≠ 0) := by
      rw [hlen, Nat.mod_self]
      omega
    rw [if_neg hmod]
    have hg : cart.length / n = 1 := by rw [hlen, Nat.div_self hn0]
    rw [hg]
    have hrange : List.range n = List.range cart.length := by rw [hlen]
    rw [hrange, range_map_take_one cart]
    have hforall : ∀ grp ∈ cart.map (fun u => [u]),
        (broadcast_radius_mul radius grp).map (fun pts => pts.map (fun p => vadd p c))
          = .ok (radius.map (fun r => vadd (vsmul r (grp.headD [])) c)) := by
      intro grp hgrp
      obtain ⟨u, hu, rfl⟩ := List.mem_map.1 hgrp
      have h1 : (broadcast_radius_mul radius [u]).map (fun pts => pts.map (fun p => vadd p c))
          = .ok ((radius.map (fun r => vsmul r u)).map (fun p => vadd p c)) := rfl
      rw [h1, List.map_map]
      rfl
    have hmapM := mapM_ok_map
      (fun grp => (broadcast_radius_mul radius grp).map (fun pts => pts.map (fun p => vadd p c)))
      (fun grp => radius.map (fun r => vadd (vsmul r (grp.headD [])) c))
      (cart.map (fun u => [u])) hforall
    rw [hmapM]
    show Except.ok (((cart.map (fun u => [u])).map
        (fun grp => radius.map (fun r => vadd (vsmul r (grp.headD [])) c))).flatten) = _
    rw [List.map_map]
    rfl
  refine ⟨main, ?_⟩
  rw [main]
  show some ((cart.map (fun u => radius.map (fun r => vadd (vsmul r u) c))).flatten).length
      = some (n * radius.length)
  have hall : ∀ x ∈ cart.map (fun u => radius.map (fun r => vadd (vsmul r u) c)),
      x.length = radius.length := by
    intro x hx
    obtain ⟨u, _, rfl⟩ := List.mem_map.1 hx
    exact List.length_map radius _
  rw [flatten_length_const radius.length _ hall, List.length_map, hlen, Nat.mul_comm]

theorem claim_C3_witness :
    ((1 : ℕ) < 2 ∧ ([[(1 : ℝ), 0, 0], [0, 1, 0]] : List Vec3).length = 2) ∧
    (split_and_conquer 2 [(0 : ℝ), 0, 0] [[(1 : ℝ), 0, 0], [0, 1, 0]]
      = .ok ((([[(1 : ℝ), 0, 0], [0, 1, 0]] : List Vec3).map
          (fun u => radius.map (fun r => vadd (vsmul r u) [(0 : ℝ), 0, 0]))).flatten) ∧
     exceptLen (split_and_conquer 2 [(0 : ℝ), 0, 0] [[(1 : ℝ), 0, 0], [0, 1, 0]])
      = some (2 * radius.length)) :=
  ⟨⟨by norm_num, rfl⟩,
   claim_C3_split_and_conquer_groups 2 (by norm_num) [(0 : ℝ), 0, 0]
     [[(1 : ℝ), 0, 0], [0, 1, 0]] rfl⟩

end SSLoc

namespace SSLoc

/-! ### C2: get_estimates on a single source -/

/-- The signal rows matched to a request, in request order (refinement
statement of the dictionary lookups). -/
noncomputable def matched_signals (data : List PyVal) (args : List String) : List PyVal :=
  args.map (fun a => data.getD (mic_names.indexOf a) PyVal.vNone)

/-- The microphone locations matched to a request, in request order. -/
noncomputable def matched_locations (args : List String) : List (List ℝ) :=
  args.map (fun a => create_microphone_locations_list.getD (mic_names.indexOf a) [])

theorem get_mic_match_known (data : List PyVal) (args : List String)
    (h1 : signal_empty_guard data = false)
    (h2 : deep_contains_none_list data = false)
    (h3 : has_empty_string_row data = false)
    (h4 : args ≠ [])
    (h12 : data.length = 12)
    (hknown : ∀ a ∈ args, mic_names.contains a = true) :
    get_mic_match_with_sound_data data args
      = .ok (.found (matched_signals data args) (matched_locations args)) := by
  rw [get_mic_match_found data args h1 h2 h3 h4 h12, List.filter_eq_self.2 hknown]
  rfl

theorem create_locations_explicit :
    create_microphone_locations_list =
      [[-0.102235, -0.109982, 0.056388], [-0.102235, -0.109982, 0.001524],
       [-0.102235, -0.109982, -0.053340], [-0.102235, -0.109982, -0.108204],
       [-0.052197, -0.109982, 0.056388], [-0.052197, -0.109982, 0.001524],
       [-0.052197, -0.109982, -0.053340], [-0.052197, -0.109982, -0.108204],
       [-0.027304, -0.109982, 0.056388], [-0.027304, -0.109982, 0.001524],
       [-0.027304, -0.109982, -0.053340], [-0.027304, -0.109982, -0.108204]] := rfl

theorem create_locations_getD_length (i : ℕ) (hi : i < 12) :
    (create_microphone_locations_list.getD i []).length = 3 := by
  rw [create_locations_explicit]
  interval_cases i <;> rfl

theorem indexOf_lt_of_contains (a : String) (hc : mic_names.contains a = true) :
    mic_names.indexOf a < 12 := by
  have hm : a ∈ mic_names := by
    obtain ⟨x, hx, hbeq⟩ := List.contains_iff_exists_mem_beq.1 hc
    rwa [show a = x from beq_iff_eq.1 hbeq]
  have := List.indexOf_lt_length.2 hm
  simpa using this

theorem matched_locations_length3 (args : List String)
    (hknown : ∀ a ∈ args, mic_names.contains a = true) :
    ∀ r ∈ matched_locations args, r.length = 3 := by
  intro r hr
  obtain ⟨a, ha, rfl⟩ := List.mem_map.1 hr
  exact create_locations_getD_length _ (indexOf_lt_of_contains a (hknown a ha))

theorem deep_list_false_forall :
    ∀ (l : List PyVal), deep_contains_none_list l = false →
      ∀ x ∈ l, deep_contains_none x = false := by
  intro l
  induction l with
  | nil => intro _ x hx; exact absurd hx (List.not_mem_nil x)
  | cons y ys ih =>
    intro h x hx
    rw [deep_contains_none_list, Bool.or_eq_false_iff] at h
    rcases List.mem_cons.1 hx with rfl | hx2
    · exact h.1
    · exact ih h.2 x hx2

theorem isNoneB_false_of_deep (x : PyVal) (h : deep_contains_none x = false) :
    x.isNoneB = false := by
  cases x with
  | vNone => exact absurd h (by rw [deep_contains_none]; exact Bool.true_eq_false ▸ (by simp))
  | vStr s => rfl
  | vInt n => rfl
  | vFloat t => rfl
  | vList l => rfl

theorem matched_signal_mem (data : List PyVal) (h12 : data.length = 12) (a : String)
    (hc : mic_names.contains a = true) :
    data.getD (mic_names.indexOf a) PyVal.vNone ∈ data := by
  have hi : mic_names.indexOf a < data.length := by
    rw [h12]
    exact indexOf_lt_of_contains a hc
  rw [List.getD_eq_getElem data PyVal.vNone hi]
  exact List.getElem_mem hi

theorem py_row_vlist_floats (m : List ℝ) :
    py_row (.vList (m.map PyVal.vFloat)) = m := py_row_loc_to_py m

/-- Evaluation of `get_estimates` with `num_sources = 1` on a well-formed
12-row matrix of list-valued rows and known microphone names:
its points are exactly the radius sweep along the DOA unit direction,
recentred on the centroid of the matched locations. -/
theorem get_estimates_single (locate : List PyVal → List (List ℝ) → DoaResult 1)
    (data : List PyVal) (args : List String)
    (h1 : signal_empty_guard data = false)
    (h2 : deep_contains_none_list data = false)
    (h3 : has_empty_string_row data = false)
    (h4 : args ≠ [])
    (h12 : data.length = 12)
    (hknown : ∀ a ∈ args, mic_names.contains a = true)
    (hrowsl : ∀ r ∈ data, ∃ l, r = PyVal.vList l)
    (a γ : ℝ)
    (hdoa : (locate (matched_signals data args) (matched_locations args)).azimuth = [a])
    (hdoc : (locate (matched_signals data args) (matched_locations args)).colatitude = [γ]) :
    get_estimates 1 locate data args
      = .ok (radius.map (fun r =>
          vadd (vsmul r (unit_direction a γ)) (get_centroid_mean (matched_locations args)))) := by
  have hempty : args.isEmpty = false := by
    cases args with
    | nil => exact absurd rfl h4
    | cons x xs => rfl
  have hmm := get_mic_match_known data args h1 h2 h3 h4 h12 hknown
  have hlocne : matched_locations args ≠ [] := by
    cases args with
    | nil => exact absurd rfl h4
    | cons x xs => exact List.cons_ne_nil _ _
  have hcent : get_centroid ((matched_locations args).map loc_to_py)
      = .ok (.vList ((get_centroid_mean (matched_locations args)).map PyVal.vFloat)) :=
    get_centroid_float_rows (matched_locations args) 3 hlocne (by norm_num)
      (matched_locations_length3 args hknown)
  have hsige : (matched_signals data args).isEmpty = false := by
    cases args with
    | nil => exact absurd rfl h4
    | cons x xs => rfl
  have hsig1 : ((matched_signals data args).length = 1
      && ((matched_signals data args).headD .vNone).isNoneB) = false := by
    cases hargs : args with
    | nil => exact absurd hargs h4
    | cons x xs =>
      have hmemx : data.getD (mic_names.indexOf x) PyVal.vNone ∈ data :=
        matched_signal_mem data h12 x (hknown x (by rw [hargs]; exact List.mem_cons_self x xs))
      have hd : deep_contains_none (data.getD (mic_names.indexOf x) PyVal.vNone) = false :=
        deep_list_false_forall data h2 _ hmemx
      have hnone : (data.getD (mic_names.indexOf x) PyVal.vNone).isNoneB = false :=
        isNoneB_false_of_deep _ hd
      have hhead : (matched_signals data (x :: xs)).headD .vNone
          = data.getD (mic_names.indexOf x) PyVal.vNone := rfl
      rw [hhead, hnone, Bool.and_false]
  have hany : (matched_signals data args).any row_contains_none = false := by
    rw [Bool.eq_false_iff]
    intro hcontra
    obtain ⟨x, hx, hpx⟩ := List.any_eq_true.1 hcontra
    obtain ⟨nm, hnm, rfl⟩ := List.mem_map.1 hx
    have hmemx : data.getD (mic_names.indexOf nm) PyVal.vNone ∈ data :=
      matched_signal_mem data h12 nm (hknown nm hnm)
    have hd : deep_contains_none (data.getD (mic_names.indexOf nm) PyVal.vNone) = false :=
      deep_list_false_forall data h2 _ hmemx
    obtain ⟨l, hl⟩ := hrowsl _ hmemx
    rw [hl] at hpx hd
    rw [row_contains_none] at hpx
    rw [deep_contains_none] at hd
    obtain ⟨z, hz, hzn⟩ := List.any_eq_true.1 hpx
    have := deep_list_false_forall l hd z hz
    cases z with
    | vNone => rw [deep_contains_none] at this; exact Bool.true_eq_false ▸ (by simp at this)
    | vStr s => simp [PyVal.isNoneB] at hzn
    | vInt n => simp [PyVal.isNoneB] at hzn
    | vFloat t => simp [PyVal.isNoneB] at hzn
    | vList m => simp [PyVal.isNoneB] at hzn
  have hlocb : (matched_locations args).isEmpty = false := by
    cases args with
    | nil => exact absurd rfl h4
    | cons x xs => rfl
  have hdiff : difference_of_arrivals 1 locate (matched_signals data args)
      (matched_locations args) = .ok (locate (matched_signals data args) (matched_locations args)) := by
    unfold difference_of_arrivals
    rw [hsige, hsig1, hany, hlocb]
    simp
  simp only [get_estimates, hempty, Bool.false_eq_true, if_false, hmm, hcent, hdiff,
    hdoa, hdoc, List.zipWith_cons_cons, List.zipWith_nil_right]
  have hlt : ¬(1 < 1) := by omega
  rw [if_neg hlt]
  have hbc : broadcast_radius_mul radius [unit_direction a γ]
      = .ok (radius.map (fun r => vsmul r (unit_direction a γ))) := rfl
  rw [hbc]
  show Except.ok ((radius.map (fun r => vsmul r (unit_direction a γ))).map
      (fun p => vadd p (py_row (.vList ((get_centroid_mean (matched_locations args)).map PyVal.vFloat))))) = _
  rw [py_row_vlist_floats, List.map_map]
  rfl

end SSLoc

namespace SSLoc

/-- C2: for `numSources = 1`, `get_estimates` returns exactly
`len(radius)` points, the i-th point being `radius_i` times the unit
direction `(cos az * sin colat, sin az * sin colat, cos colat)` plus the
centroid of the matched microphone locations; and for `az = 0`,
`colat = pi/2` the unit direction is `(1, 0, 0)`. -/
theorem claim_C2_single_source_sweep (locate : List PyVal → List (List ℝ) → DoaResult 1)
    (data : List PyVal) (args : List String)
    (h1 : signal_empty_guard data = false)
    (h2 : deep_contains_none_list data = false)
    (h3 : has_empty_string_row data = false)
    (h4 : args ≠ [])
    (h12 : data.length = 12)
    (hknown : ∀ a ∈ args, mic_names.contains a = true)
    (hrowsl : ∀ r ∈ data, ∃ l, r = PyVal.vList l)
    (a γ : ℝ)
    (hdoa : (locate (matched_signals data args) (matched_locations args)).azimuth = [a])
    (hdoc : (locate (matched_signals data args) (matched_locations args)).colatitude = [γ]) :
    get_estimates 1 locate data args
      = .ok (radius.map (fun r =>
          vadd (vsmul r (unit_direction a γ)) (get_centroid_mean (matched_locations args)))) ∧
    exceptLen (get_estimates 1 locate data args) = some radius.length ∧
    unit_direction 0 (Real.pi / 2) = [1, 0, 0] := by
  have main := get_estimates_single locate data args h1 h2 h3 h4 h12 hknown hrowsl a γ hdoa hdoc
  refine ⟨main, ?_, ?_⟩
  · rw [main]
    show some _ = some radius.length
    rw [List.length_map]
  · rw [unit_direction]
    norm_num [Real.cos_pi_div_two, Real.sin_pi_div_two]

/-- A DOA stub pointing along the +x axis (azimuth 0, co-latitude pi/2). -/
noncomputable def locate_axis : List PyVal → List (List ℝ) → DoaResult 1 :=
  fun _ _ => ⟨[0], [Real.pi / 2], rfl, rfl⟩

/-- A well-formed 12-row signal matrix of single-sample zero rows. -/
noncomputable def data_zeros : List PyVal := List.replicate 12 (.vList [.vFloat 0])

theorem claim_C2_witness :
    get_estimates 1 locate_axis data_zeros ["mic1"]
      = .ok (radius.map (fun r =>
          vadd (vsmul r (unit_direction 0 (Real.pi / 2)))
            (get_centroid_mean (matched_locations ["mic1"])))) ∧
    exceptLen (get_estimates 1 locate_axis data_zeros ["mic1"]) = some radius.length ∧
    unit_direction 0 (Real.pi / 2) = [1, 0, 0] :=
  claim_C2_single_source_sweep locate_axis data_zeros ["mic1"] rfl rfl rfl (by simp) rfl
    (by decide) (fun r hr => ⟨[PyVal.vFloat 0], List.eq_of_mem_replicate hr⟩)
    0 (Real.pi / 2) rfl rfl

end SSLoc

namespace SSLoc

/-! ### C4: process_potential_estimates -/

/-- C4: `process_potential_estimates` enumerates exactly C(6,3) = 20
distinct unordered 3-element subsets of the selected 6-microphone pool;
they are dispatched in 4 rounds of 5 thread slots, the output
concatenating per-subset estimates in round-major then thread-major
order (round `j` takes element `k * 4 + j` of the subset list for
threads `k = 0..4`); and every resulting point is translated by the
fixed room center `[0.34925, 0.219964, 0.2413] / 2`. -/
theorem claim_C4_process_cycle_structure :
    (combinations combinations_number (mics_for true)).length = 20 ∧
    List.Pairwise (fun s t => ¬ s.Perm t) (combinations combinations_number (mics_for true)) ∧
    (∀ s ∈ combinations combinations_number (mics_for true),
      s.length = 3 ∧ s.Nodup ∧ ∀ m ∈ s, m ∈ mics_for true) ∧
    scheduled_subsets (combinations combinations_number (mics_for true))
      = .ok ((List.range 4).flatMap (fun j => (List.range 5).map
          (fun k => (combinations combinations_number (mics_for true)).getD (k * 4 + j) []))) ∧
    center_of_room = [0.174625, 0.109982, 0.12065] ∧
    (∀ (num_sources : ℕ) (locate : List PyVal → List (List ℝ) → DoaResult num_sources)
       (data : List PyVal) (b : Bool)
       (sched : List (List String)) (ests : List (List Vec3)),
      scheduled_subsets (combinations combinations_number (mics_for b)) = .ok sched →
      sched.mapM (fun split => get_estimates num_sources locate data split) = .ok ests →
      process_potential_estimates num_sources locate data b
        = .ok (ests.flatten.map (fun p => vadd center_of_room p))) := by
  refine ⟨by decide, by decide, by decide, rfl, ?_, ?_⟩
  · rw [center_of_room, room_dim]
    norm_num
  · intro num_sources locate data b sched ests hsched hests
    simp only [process_potential_estimates, hsched, hests]

theorem claim_C4_witness :
    process_potential_estimates 1 locate_axis data_zeros true
      = .ok (((((List.range 4).flatMap (fun j => (List.range 5).map
            (fun k => (combinations combinations_number (mics_for true)).getD (k * 4 + j) []))).map
          (fun split => radius.map (fun r =>
            vadd (vsmul r (unit_direction 0 (Real.pi / 2)))
              (get_centroid_mean (matched_locations split))))).flatten).map
          (fun p => vadd center_of_room p)) := by
  have hsub : ∀ split ∈ (List.range 4).flatMap (fun j => (List.range 5).map
      (fun k => (combinations combinations_number (mics_for true)).getD (k * 4 + j) [])),
      split ≠ [] ∧ ∀ a ∈ split, mic_names.contains a = true := by decide
  have hests := mapM_ok_map
    (fun split => get_estimates 1 locate_axis data_zeros split)
    (fun split => radius.map (fun r =>
      vadd (vsmul r (unit_direction 0 (Real.pi / 2)))
        (get_centroid_mean (matched_locations split))))
    ((List.range 4).flatMap (fun j => (List.range 5).map
      (fun k => (combinations combinations_number (mics_for true)).getD (k * 4 + j) [])))
    (fun s hs => get_estimates_single locate_axis data_zeros s rfl rfl rfl
      (hsub s hs).1 rfl (hsub s hs).2
      (fun r hr => ⟨[PyVal.vFloat 0], List.eq_of_mem_replicate hr⟩)
      0 (Real.pi / 2) rfl rfl)
  exact claim_C4_process_cycle_structure.2.2.2.2.2 1 locate_axis data_zeros true _ _
    claim_C4_process_cycle_structure.2.2.2.1 hests

end SSLoc
